import Mathlib

/-!
Shallow embedding of `src/wiki.py` (Audiobookshelf Author Metadata Updater).

The Python module drives a single synchronization loop:
`process_authors` lists authors, filters those missing metadata
(`needs_update`), looks each one up on Wikipedia (`search_wikipedia`)
and, unless in dry-run mode, writes the results back
(`update_author`, which composes a description PATCH with
`upload_image_url`).

Network I/O is modelled by an oracle (`Env`) that fixes, for each
author name / author id, the parsed response data and the HTTP outcome
of each write.  `requests`' `raise_for_status` raises exactly for
status codes in `[400, 600)`; a transport error means the request call
itself raised.  Side effects (lookups, writes, the inter-author
`time.sleep`) are recorded as an event trace.
-/

/-- Outcome of one HTTP request: either the request call itself raised
(connection/transport error) or a response with the given status code
came back. -/
inductive HttpOutcome where
  | transportError : HttpOutcome
  | response : Nat → HttpOutcome
deriving DecidableEq, Repr

/-- `requests.Response.raise_for_status` raises `HTTPError` exactly for
status codes in `[400, 600)`.  Viewed from a `try` block, a step that
issues a request and then calls `raise_for_status` raises iff the
request had a transport error or the status is 4xx/5xx. -/
def stepRaises : HttpOutcome → Bool
  | HttpOutcome.transportError => true
  | HttpOutcome.response s => decide (400 ≤ s ∧ s < 600)

/-- Python truthiness of an optional string field (`author.get(k)`):
`None` and the empty string are falsy, any non-empty string is truthy. -/
def strTruthy : Option String → Bool
  | none => false
  | some s => !s.isEmpty

/-- An author record as returned by the Audiobookshelf API
(`{id, name, description, imagePath}`); `description` / `imagePath`
may be absent or empty. -/
structure Author where
  id : String
  name : String
  description : Option String
  imagePath : Option String
deriving DecidableEq, Repr

/-- `needs_update` (wiki.py lines 47-51): the author needs an update when
the description is missing/empty or the image path is missing/empty. -/
def needs_update (author : Author) : Bool :=
  let missing_description := !strTruthy author.description
  let missing_image := !strTruthy author.imagePath
  missing_description || missing_image

/-- The relevant fields of the page-info object returned by the second
Wikipedia query: `extract` (introductory plain text, may be absent) and
`original.source` (original image URL, may be absent). -/
structure PageInfo where
  extract : Option String
  originalSource : Option String
deriving DecidableEq, Repr

/-- The dict built by `search_wikipedia` on success:
`{description, image_url, source}`. -/
structure WikiResult where
  description : String
  image_url : Option String
  source : String
deriving DecidableEq, Repr

/-- Python's `str.strip()` with no argument: remove leading and
trailing whitespace characters. -/
def pyStrip (s : String) : String :=
  String.mk
    (((s.data.dropWhile Char.isWhitespace).reverse.dropWhile
      Char.isWhitespace).reverse)

/-- Python's `str.replace(old, new)` for the single-character pattern
used at wiki.py line 100 (`page_title.replace(' ', '_')`): map every
occurrence of `old` to `new`. -/
def pyReplaceChar (s : String) (old new : Char) : String :=
  String.mk (s.data.map fun c => if c = old then new else c)

/-- `search_wikipedia` (wiki.py lines 53-108), given the parsed data of
its two requests: `searchTitles` is the list of titles of the search
response (`search_data['query']['search']`, projected to titles) and
`pageOf` gives the page-info object of the second query for a title.
Zero search results log a warning and return `None`; otherwise the
result is built from the top title's page: stripped extract (defaulting
to `''`), optional original image URL, and a canonical page URL with
spaces replaced by underscores. -/
def search_wikipedia (searchTitles : List String)
    (pageOf : String → PageInfo) : Option WikiResult :=
  match searchTitles with
  | [] => none
  | page_title :: _ =>
    let page_info := pageOf page_title
    some { description := pyStrip ((page_info.extract).getD "")
           image_url := page_info.originalSource
           source := "https://en.wikipedia.org/wiki/" ++
             pyReplaceChar page_title ' ' '_' }

/-- A network side effect or pause performed by the run. -/
inductive Event where
  | lookup : String → Event
  | patch : String → String → Event
  | imagePost : String → String → Event
  | sleep : Event
deriving DecidableEq, Repr

/-- Writes to the library server are the PATCH of a description and the
POST of an image URL; lookups and sleeps are not writes. -/
def Event.isWrite : Event → Bool
  | Event.patch _ _ => true
  | Event.imagePost _ _ => true
  | _ => false

/-- The oracle fixing every external interaction of one run: per author
name, the titles returned by the Wikipedia search and the page info per
title; per author id, the HTTP outcome of the description PATCH and of
the image-upload POST. -/
structure Env where
  searchTitles : String → List String
  pageOf : String → PageInfo
  patchOutcome : String → HttpOutcome
  imageOutcome : String → HttpOutcome

/-- `upload_image_url` (wiki.py lines 110-130): POST the image URL.  On a
transport error the `except` returns `False`.  On a response with
status `≠ 200` the code logs and calls `raise_for_status`, which raises
(hence `False`) only for 4xx/5xx; any other status falls through to
`return True`, as does a 200. -/
def upload_image_url (o : HttpOutcome) : Bool :=
  match o with
  | HttpOutcome.transportError => false
  | HttpOutcome.response s =>
    if s ≠ 200 then
      if 400 ≤ s ∧ s < 600 then false else true
    else true

/-- `update_author` (wiki.py lines 132-156): `success = True`; if the
description argument is truthy, PATCH it and `raise_for_status` (an
exception lands in the outer `except`, returning `False` before the
image branch runs); if the image URL argument is truthy, call
`upload_image_url` and AND its result into `success`.  Returns the
success flag together with the trace of requests issued. -/
def update_author (author_id : String) (description : Option String)
    (image_url : Option String) (env : Env) : Bool × List Event :=
  if strTruthy description then
    if stepRaises (env.patchOutcome author_id) then
      (false, [Event.patch author_id (description.getD "")])
    else if strTruthy image_url then
      (upload_image_url (env.imageOutcome author_id),
        [Event.patch author_id (description.getD ""),
         Event.imagePost author_id (image_url.getD "")])
    else
      (true, [Event.patch author_id (description.getD "")])
  else if strTruthy image_url then
    (upload_image_url (env.imageOutcome author_id),
      [Event.imagePost author_id (image_url.getD "")])
  else
    (true, [])

/-- Description argument of the `update_author` call in
`process_authors` (wiki.py line 198): the fetched description if the
record's description is falsy, else `None`. -/
def descArg (author : Author) (wiki_data : WikiResult) : Option String :=
  if !strTruthy author.description then some wiki_data.description else none

/-- Image-URL argument of the `update_author` call in `process_authors`
(wiki.py line 199): the fetched image URL if the record's image path is
falsy, else `None`. -/
def imgArg (author : Author) (wiki_data : WikiResult) : Option String :=
  if !strTruthy author.imagePath then wiki_data.image_url else none

/-- Per-author contribution of one iteration of the loop in
`process_authors`: counter increments and the events performed. -/
structure StepResult where
  updatedInc : Nat
  skippedInc : Nat
  events : List Event
deriving DecidableEq, Repr

/-- One iteration of the `for author in authors` loop
(wiki.py lines 175-205).  An author that does not need an update is
counted as skipped and the loop `continue`s (no lookup, no sleep).
Otherwise `search_wikipedia` is called; on `None` nothing is counted;
on success, dry-run mode only logs, while live mode calls
`update_author` with the merge arguments and increments the updated
counter iff it succeeded.  Every path past the lookup ends in
`time.sleep(delay)`. -/
def processOne (dry_run : Bool) (env : Env) (author : Author) : StepResult :=
  if !needs_update author then
    { updatedInc := 0, skippedInc := 1, events := [] }
  else
    let wiki_data := search_wikipedia (env.searchTitles author.name) env.pageOf
    match wiki_data with
    | none =>
      { updatedInc := 0, skippedInc := 0
        events := [Event.lookup author.name, Event.sleep] }
    | some w =>
      if dry_run then
        { updatedInc := 0, skippedInc := 0
          events := [Event.lookup author.name, Event.sleep] }
      else
        let r := update_author author.id (descArg author w) (imgArg author w) env
        { updatedInc := if r.1 then 1 else 0
          skippedInc := 0
          events := [Event.lookup author.name] ++ r.2 ++ [Event.sleep] }

/-- Final state of one run: the two counters and the full event trace. -/
structure RunState where
  updated : Nat
  skipped : Nat
  events : List Event
deriving DecidableEq, Repr

/-- Accumulation of one loop iteration into the run state: counters are
added, events appended in order. -/
def runStep (dry_run : Bool) (env : Env) (st : RunState) (author : Author) :
    RunState :=
  let r := processOne dry_run env author
  { updated := st.updated + r.updatedInc
    skipped := st.skipped + r.skippedInc
    events := st.events ++ r.events }

/-- `process_authors` (wiki.py lines 158-209) with the author list
(`get_all_authors`' result) supplied as input: an empty list logs an
error and returns at once; otherwise the counters start at 0 and the
loop runs over the authors in order. -/
def process_authors (dry_run : Bool) (env : Env) (authors : List Author) :
    RunState :=
  if authors.isEmpty then
    { updated := 0, skipped := 0, events := [] }
  else
    authors.foldl (runStep dry_run env)
      { updated := 0, skipped := 0, events := [] }

/-- Whether an event list contains a description PATCH. -/
def hasPatch (evs : List Event) : Bool :=
  evs.any fun e => match e with
    | Event.patch _ _ => true
    | _ => false

/-- Whether an event list contains an image-upload POST. -/
def hasImagePost (evs : List Event) : Bool :=
  evs.any fun e => match e with
    | Event.imagePost _ _ => true
    | _ => false

/-! ## Claim theorems -/

/-- C6: if the author list comes back empty, the run terminates at once
with updated = 0 and skipped = 0, attempting no lookups and making no
writes (empty event trace). -/
theorem empty_author_list_terminates (dry_run : Bool) (env : Env) :
    process_authors dry_run env [] =
      { updated := 0, skipped := 0, events := [] } := rfl

/-- In dry-run mode a single loop iteration never increments the
updated counter and performs no write event. -/
theorem processOne_dry_no_writes (env : Env) (a : Author) :
    (processOne true env a).updatedInc = 0 ∧
    ∀ e ∈ (processOne true env a).events, e.isWrite = false := by
  unfold processOne
  cases h : needs_update a with
  | false => simp
  | true =>
    cases hw : search_wikipedia (env.searchTitles a.name) env.pageOf with
    | none => simp [Event.isWrite]
    | some w => simp [Event.isWrite]

/-- The dry-run invariant (updated counter 0, no write events) is
preserved by the fold over the author list. -/
theorem foldl_dry_invariant (env : Env) (authors : List Author)
    (st : RunState) (h1 : st.updated = 0)
    (h2 : ∀ e ∈ st.events, e.isWrite = false) :
    (authors.foldl (runStep true env) st).updated = 0 ∧
    ∀ e ∈ (authors.foldl (runStep true env) st).events, e.isWrite = false := by
  induction authors generalizing st with
  | nil => exact ⟨h1, h2⟩
  | cons a rest ih =>
    simp only [List.foldl_cons]
    apply ih
    · simp [runStep, h1, (processOne_dry_no_writes env a).1]
    · intro e he
      simp only [runStep, List.mem_append] at he
      rcases he with he | he
      · exact h2 e he
      · exact (processOne_dry_no_writes env a).2 e he

/-- C2: a dry-run issues zero write calls to the library server (no
description PATCH and no image POST anywhere in the trace) and never
increments the updated counter, for every author list and every oracle
of lookup outcomes. -/
theorem dry_run_makes_no_writes (env : Env) (authors : List Author) :
    (process_authors true env authors).updated = 0 ∧
    ∀ e ∈ (process_authors true env authors).events, e.isWrite = false := by
  unfold process_authors
  split
  · simp
  · exact foldl_dry_invariant env authors _ rfl (by simp)

/-- C7: an author whose record already has a non-empty description and a
non-empty image path is counted as skipped with no network call and no
inter-author delay; for every author for which a lookup was attempted
(`needs_update`), the trace contains the lookup and ends with the
delay, whatever the lookup's outcome. -/
theorem skip_cached_and_delay_after_lookup (dry_run : Bool) (env : Env)
    (a : Author) :
    (strTruthy a.description = true → strTruthy a.imagePath = true →
      processOne dry_run env a =
        { updatedInc := 0, skippedInc := 1, events := [] }) ∧
    (needs_update a = true →
      Event.lookup a.name ∈ (processOne dry_run env a).events ∧
      ∃ pre, (processOne dry_run env a).events = pre ++ [Event.sleep]) := by
  constructor
  · intro h1 h2
    have hn : needs_update a = false := by simp [needs_update, h1, h2]
    unfold processOne
    simp [hn]
  · intro hn
    unfold processOne
    rw [hn]
    simp only [Bool.not_true, Bool.false_eq_true, if_false]
    cases hw : search_wikipedia (env.searchTitles a.name) env.pageOf with
    | none => exact ⟨by simp, [Event.lookup a.name], rfl⟩
    | some w =>
      cases dry_run with
      | true => exact ⟨by simp, [Event.lookup a.name], rfl⟩
      | false =>
        refine ⟨by simp, Event.lookup a.name ::
          (update_author a.id (descArg a w) (imgArg a w) env).2, ?_⟩
        simp

/-- C4 counterexample: a 304 response is not a 2xx success, yet
`upload_image_url` returns `true` for it — `raise_for_status` only
raises for statuses in `[400, 600)`, so the claimed "false exactly on
non-2xx" is refuted at status 304. -/
theorem upload_image_url_non2xx_true_cex :
    upload_image_url (HttpOutcome.response 304) = true ∧
    ¬(200 ≤ 304 ∧ 304 < 300) := by decide

/-- C4 (amended): `upload_image_url` returns `false` exactly when the
POST had a transport error or came back with a 4xx/5xx status (that is,
a status in `[400, 600)`); it returns `true` on every 2xx response and
also on any other status outside `[400, 600)`. -/
theorem upload_image_url_failure_contract (o : HttpOutcome) :
    upload_image_url o = false ↔
      (o = HttpOutcome.transportError ∨
        ∃ s, o = HttpOutcome.response s ∧ 400 ≤ s ∧ s < 600) := by
  cases o with
  | transportError => simp [upload_image_url]
  | response s =>
    simp only [upload_image_url]
    constructor
    · intro h
      by_cases h200 : s = 200
      · simp [h200] at h
      · simp only [h200, ne_eq, not_false_iff, if_true] at h
        split at h
        · exact Or.inr ⟨s, rfl, by assumption⟩
        · cases h
    · rintro (h | ⟨t, ht, h4, h6⟩)
      · cases h
      · injection ht with hst
        subst hst
        have h200 : s ≠ 200 := by omega
        simp [h200, h4, h6]

/-- C3: `update_author` issues the description PATCH only when the
description argument is truthy and the image POST only when the image
URL argument is truthy; its boolean result equals the conjunction of
the results of the sub-operations it actually issued (an operation that
was never issued contributes `true`), and with both arguments empty it
performs nothing and returns `true`. -/
theorem update_author_and_of_invoked (author_id : String)
    (d i : Option String) (env : Env) :
    (hasPatch (update_author author_id d i env).2 = true →
      strTruthy d = true) ∧
    (hasImagePost (update_author author_id d i env).2 = true →
      strTruthy i = true) ∧
    ((update_author author_id d i env).1 =
      ((!hasPatch (update_author author_id d i env).2 ||
          !stepRaises (env.patchOutcome author_id)) &&
        (!hasImagePost (update_author author_id d i env).2 ||
          upload_image_url (env.imageOutcome author_id)))) ∧
    (strTruthy d = false → strTruthy i = false →
      update_author author_id d i env = (true, [])) := by
  unfold update_author
  cases hd : strTruthy d with
  | false =>
    cases hi : strTruthy i with
    | false => simp [hasPatch, hasImagePost]
    | true => simp [hasPatch, hasImagePost]
  | true =>
    cases hr : stepRaises (env.patchOutcome author_id) with
    | false =>
      cases hi : strTruthy i with
      | false => simp [hasPatch, hasImagePost]
      | true => simp [hasPatch, hasImagePost]
    | true => simp [hasPatch, hasImagePost]

/-! ## Concrete fixtures used by the witnesses -/

/-- Oracle whose Wikipedia search finds nothing and whose writes would
all succeed with status 200. -/
def envNone : Env :=
  { searchTitles := fun _ => []
    pageOf := fun _ => { extract := none, originalSource := none }
    patchOutcome := fun _ => HttpOutcome.response 200
    imageOutcome := fun _ => HttpOutcome.response 200 }

/-- An author record with no description and no image path. -/
def janeNoMeta : Author :=
  { id := "a1", name := "Jane Doe", description := none, imagePath := none }

/-- A page with an untrimmed extract and an original image. -/
def pageJane : PageInfo :=
  { extract := some "  Jane Doe is a writer.  "
    originalSource := some "http://x/y.jpg" }

/-- The lookup result built from `pageJane` for the title `Jane Doe`. -/
def janeResult : WikiResult :=
  { description := "Jane Doe is a writer."
    image_url := some "http://x/y.jpg"
    source := "https://en.wikipedia.org/wiki/Jane_Doe" }

/-- C5: when the encyclopedia search returns zero results, the lookup
returns `none` (no exception) and the loop iteration makes no write,
increments neither counter, and just records the lookup and the pacing
delay. -/
theorem lookup_miss_uncounted (dry_run : Bool) (env : Env) (a : Author)
    (hn : needs_update a = true)
    (hz : env.searchTitles a.name = []) :
    search_wikipedia (env.searchTitles a.name) env.pageOf = none ∧
    processOne dry_run env a =
      { updatedInc := 0, skippedInc := 0
        events := [Event.lookup a.name, Event.sleep] } := by
  have hs : search_wikipedia (env.searchTitles a.name) env.pageOf = none := by
    rw [hz]
    rfl
  refine ⟨hs, ?_⟩
  unfold processOne
  rw [hn]
  simp [hs]

/-- C5 witness: a concrete author with no metadata and an oracle whose
search yields nothing. -/
theorem lookup_miss_uncounted_witness :
    needs_update janeNoMeta = true ∧
    envNone.searchTitles janeNoMeta.name = [] ∧
    (search_wikipedia (envNone.searchTitles janeNoMeta.name)
        envNone.pageOf = none ∧
      processOne false envNone janeNoMeta =
        { updatedInc := 0, skippedInc := 0
          events := [Event.lookup janeNoMeta.name, Event.sleep] }) :=
  ⟨rfl, rfl, lookup_miss_uncounted false envNone janeNoMeta rfl rfl⟩

/-- C8: every successful lookup result is built from the top search
title's page: trimmed introductory extract (possibly empty), the
original image URL when present and `none` otherwise, and the canonical
page URL with spaces replaced by underscores. -/
theorem lookup_success_shape (searchTitles : List String)
    (pageOf : String → PageInfo) (r : WikiResult)
    (h : search_wikipedia searchTitles pageOf = some r) :
    ∃ t, searchTitles.head? = some t ∧
      r.description = pyStrip ((pageOf t).extract.getD "") ∧
      r.image_url = (pageOf t).originalSource ∧
      r.source = "https://en.wikipedia.org/wiki/" ++
        pyReplaceChar t ' ' '_' := by
  cases searchTitles with
  | nil => simp [search_wikipedia] at h
  | cons t rest =>
    refine ⟨t, rfl, ?_⟩
    simp only [search_wikipedia, Option.some.injEq] at h
    subst h
    exact ⟨rfl, rfl, rfl⟩

/-- C8 witness: a concrete result whose description is the trimmed
extract, image URL the original source, and source URL the title with
the space replaced by an underscore. -/
theorem lookup_success_shape_witness :
    search_wikipedia ["Jane Doe"] (fun _ => pageJane) = some janeResult ∧
    (∃ t, (["Jane Doe"] : List String).head? = some t ∧
      janeResult.description = pyStrip (pageJane.extract.getD "") ∧
      janeResult.image_url = pageJane.originalSource ∧
      janeResult.source = "https://en.wikipedia.org/wiki/" ++
        pyReplaceChar t ' ' '_') :=
  ⟨by decide,
    lookup_success_shape ["Jane Doe"] (fun _ => pageJane) janeResult
      (by decide)⟩

/-- A page with an extract but no original image. -/
def pageNoImage : PageInfo :=
  { extract := some "Jane Doe is a writer.", originalSource := none }

/-- Oracle whose search resolves to the page without an image and whose
writes would all succeed with status 200. -/
def envNoImage : Env :=
  { searchTitles := fun _ => ["Jane Doe"]
    pageOf := fun _ => pageNoImage
    patchOutcome := fun _ => HttpOutcome.response 200
    imageOutcome := fun _ => HttpOutcome.response 200 }

/-- An author record that already has a description but no image. -/
def janeDescOnly : Author :=
  { id := "a1", name := "Jane Doe", description := some "existing bio"
    imagePath := none }

/-- The lookup result built from `pageNoImage`: no image URL. -/
def wNoImage : WikiResult :=
  { description := "Jane Doe is a writer."
    image_url := none
    source := "https://en.wikipedia.org/wiki/Jane_Doe" }

/-- C9: when the record misses only its image and the lookup carries no
image URL, the live-mode call to `update_author` receives two empty
arguments, performs no HTTP request, returns `true`, and the updated
counter is still incremented — an update counted with no write issued. -/
theorem updated_counted_without_write (env : Env) (a : Author)
    (w : WikiResult)
    (hw : search_wikipedia (env.searchTitles a.name) env.pageOf = some w)
    (hd : strTruthy a.description = true)
    (hi : strTruthy a.imagePath = false)
    (hwi : w.image_url = none) :
    descArg a w = none ∧ imgArg a w = none ∧
    update_author a.id (descArg a w) (imgArg a w) env = (true, []) ∧
    processOne false env a =
      { updatedInc := 1, skippedInc := 0
        events := [Event.lookup a.name, Event.sleep] } := by
  have hda : descArg a w = none := by simp [descArg, hd]
  have hia : imgArg a w = none := by simp [imgArg, hi, hwi]
  have hu : update_author a.id (descArg a w) (imgArg a w) env =
      (true, []) := by
    rw [hda, hia]
    rfl
  refine ⟨hda, hia, hu, ?_⟩
  have hn : needs_update a = true := by simp [needs_update, hi]
  unfold processOne
  rw [hn]
  simp [hw, hu]

/-- C9 witness: the concrete author with only a description, against an
oracle whose page has no image. -/
theorem updated_counted_without_write_witness :
    search_wikipedia (envNoImage.searchTitles janeDescOnly.name)
      envNoImage.pageOf = some wNoImage ∧
    strTruthy janeDescOnly.description = true ∧
    strTruthy janeDescOnly.imagePath = false ∧
    wNoImage.image_url = none ∧
    (descArg janeDescOnly wNoImage = none ∧
      imgArg janeDescOnly wNoImage = none ∧
      update_author janeDescOnly.id (descArg janeDescOnly wNoImage)
        (imgArg janeDescOnly wNoImage) envNoImage = (true, []) ∧
      processOne false envNoImage janeDescOnly =
        { updatedInc := 1, skippedInc := 0
          events := [Event.lookup janeDescOnly.name, Event.sleep] }) :=
  ⟨by decide, by decide, by decide, by decide,
    updated_counted_without_write envNoImage janeDescOnly wNoImage
      (by decide) (by decide) (by decide) (by decide)⟩

/-- With an empty description argument `update_author` never issues a
description PATCH, whatever the image argument. -/
theorem hasPatch_update_author_no_desc (author_id : String)
    (i : Option String) (env : Env) :
    hasPatch (update_author author_id none i env).2 = false := by
  unfold update_author
  cases hi : strTruthy i with
  | true => simp [strTruthy, hi, hasPatch]
  | false => simp [strTruthy, hi, hasPatch]

/-- With an empty image argument `update_author` never issues an image
POST, whatever the description argument. -/
theorem hasImagePost_update_author_no_img (author_id : String)
    (d : Option String) (env : Env) :
    hasImagePost (update_author author_id d none env).2 = false := by
  unfold update_author
  cases hd : strTruthy d with
  | false => simp [strTruthy, hd, hasImagePost]
  | true =>
    cases hr : stepRaises (env.patchOutcome author_id) with
    | true => simp [hd, hr, hasImagePost]
    | false => simp [strTruthy, hd, hr, hasImagePost]

/-- Wrapping a write trace in the lookup event and the trailing delay
does not add a description PATCH. -/
theorem hasPatch_wrap (n : String) (l : List Event) :
    hasPatch (Event.lookup n :: (l ++ [Event.sleep])) = hasPatch l := by
  simp [hasPatch]

/-- Wrapping a write trace in the lookup event and the trailing delay
does not add an image POST. -/
theorem hasImagePost_wrap (n : String) (l : List Event) :
    hasImagePost (Event.lookup n :: (l ++ [Event.sleep])) =
      hasImagePost l := by
  simp [hasImagePost]

/-- C1: for a record missing exactly one of description/image path, the
live-mode write passes to `update_author` only the field that was empty
(the fetched description only when the record's description was falsy,
the fetched image URL only when the record's image path was falsy), so
the present field's write is never issued. -/
theorem live_merge_only_missing_field (env : Env) (a : Author)
    (w : WikiResult)
    (hw : search_wikipedia (env.searchTitles a.name) env.pageOf = some w)
    (hx : strTruthy a.description ≠ strTruthy a.imagePath) :
    (strTruthy a.description = true →
      descArg a w = none ∧ imgArg a w = w.image_url ∧
      hasPatch (processOne false env a).events = false) ∧
    (strTruthy a.imagePath = true →
      descArg a w = some w.description ∧ imgArg a w = none ∧
      hasImagePost (processOne false env a).events = false) := by
  constructor
  · intro hd
    have hi : strTruthy a.imagePath = false := by
      cases h : strTruthy a.imagePath with
      | false => rfl
      | true => exact absurd (hd.trans h.symm) hx
    have hda : descArg a w = none := by simp [descArg, hd]
    have hia : imgArg a w = w.image_url := by simp [imgArg, hi]
    refine ⟨hda, hia, ?_⟩
    have hn : needs_update a = true := by simp [needs_update, hi]
    unfold processOne
    rw [hn]
    simp only [Bool.not_true, Bool.false_eq_true, if_false, hw,
      List.singleton_append, List.cons_append, List.nil_append]
    rw [hasPatch_wrap, hda]
    exact hasPatch_update_author_no_desc a.id (imgArg a w) env
  · intro hi
    have hd : strTruthy a.description = false := by
      cases h : strTruthy a.description with
      | false => rfl
      | true => exact absurd (h.trans hi.symm) hx
    have hda : descArg a w = some w.description := by simp [descArg, hd]
    have hia : imgArg a w = none := by simp [imgArg, hi]
    refine ⟨hda, hia, ?_⟩
    have hn : needs_update a = true := by simp [needs_update, hd]
    unfold processOne
    rw [hn]
    simp only [Bool.not_true, Bool.false_eq_true, if_false, hw,
      List.singleton_append, List.cons_append, List.nil_append]
    rw [hasImagePost_wrap, hia]
    exact hasImagePost_update_author_no_img a.id (descArg a w) env

/-- C1 witness: the author missing only its image, with a successful
lookup — no description PATCH appears in the live trace. -/
theorem live_merge_only_missing_field_witness :
    search_wikipedia (envNoImage.searchTitles janeDescOnly.name)
      envNoImage.pageOf = some wNoImage ∧
    strTruthy janeDescOnly.description ≠ strTruthy janeDescOnly.imagePath ∧
    ((strTruthy janeDescOnly.description = true →
      descArg janeDescOnly wNoImage = none ∧
      imgArg janeDescOnly wNoImage = wNoImage.image_url ∧
      hasPatch (processOne false envNoImage janeDescOnly).events = false) ∧
    (strTruthy janeDescOnly.imagePath = true →
      descArg janeDescOnly wNoImage = some wNoImage.description ∧
      imgArg janeDescOnly wNoImage = none ∧
      hasImagePost (processOne false envNoImage janeDescOnly).events =
        false)) :=
  ⟨by decide, by decide,
    live_merge_only_missing_field envNoImage janeDescOnly wNoImage
      (by decide) (by decide)⟩

/-- Oracle whose description PATCH comes back 304 (a non-2xx status
that `raise_for_status` does not raise on) and whose image POST
succeeds with 200. -/
def envPatch304 : Env :=
  { searchTitles := fun _ => []
    pageOf := fun _ => { extract := none, originalSource := none }
    patchOutcome := fun _ => HttpOutcome.response 304
    imageOutcome := fun _ => HttpOutcome.response 200 }

/-- C10 counterexample: a description PATCH answered with status 304 is
non-2xx, yet `raise_for_status` does not raise for it, so the image
upload is still attempted in the same call and the overall result is
`true` — refuting "non-2xx description failure prevents the image
upload and yields false". -/
theorem desc_non2xx_still_uploads_cex :
    ¬(200 ≤ 304 ∧ 304 < 300) ∧
    hasImagePost (update_author "a1" (some "bio") (some "http://x/y.jpg")
      envPatch304).2 = true ∧
    (update_author "a1" (some "bio") (some "http://x/y.jpg")
      envPatch304).1 = true := by decide

/-- C10 (amended): when both arguments are non-empty and the
description PATCH raises — a transport error or a 4xx/5xx status, what
`raise_for_status` actually raises on — the image upload is never
attempted in that call and the overall result is `false`. -/
theorem desc_failure_short_circuits (author_id : String)
    (d i : Option String) (env : Env)
    (hd : strTruthy d = true) (hi : strTruthy i = true)
    (hf : stepRaises (env.patchOutcome author_id) = true) :
    update_author author_id d i env =
      (false, [Event.patch author_id (d.getD "")]) := by
  unfold update_author
  simp [hd, hi, hf]

/-- Oracle whose description PATCH has a transport error. -/
def envPatchDown : Env :=
  { searchTitles := fun _ => []
    pageOf := fun _ => { extract := none, originalSource := none }
    patchOutcome := fun _ => HttpOutcome.transportError
    imageOutcome := fun _ => HttpOutcome.response 200 }

/-- C10 witness: both arguments non-empty, PATCH hits a transport
error — the call returns `false` having issued only the PATCH. -/
theorem desc_failure_short_circuits_witness :
    strTruthy (some "bio") = true ∧
    strTruthy (some "http://x/y.jpg") = true ∧
    stepRaises (envPatchDown.patchOutcome "a1") = true ∧
    update_author "a1" (some "bio") (some "http://x/y.jpg") envPatchDown =
      (false, [Event.patch "a1" "bio"]) :=
  ⟨by decide, by decide, by decide,
    desc_failure_short_circuits "a1" (some "bio") (some "http://x/y.jpg")
      envPatchDown (by decide) (by decide) (by decide)⟩
